import Mathlib

/-!
Verification of the moscot notebook repository's specification: the OT
problem registry, cost-matrix resolution layer and solver orchestration.
The repository's own files are notebooks (usage glue); the components they
exercise are modelled here from the specification, faithful to its words.
-/

namespace Moscot

/-- Modelled from the spec: the error taxonomy of the missing core library
(section 7): configuration errors, alignment errors, shape errors, key
errors, plus an error for solving an unprepared sub-problem. -/
inductive ConfigError where
  | epsilonNegative
  | epsilonZeroWithoutLowRank
  | lowRankUnbalanced
  | alphaOutOfRange
  deriving Repr, DecidableEq

/-- Modelled from the spec: the flat solver configuration surface
(section 6): epsilon, rank, tau_a, tau_b, alpha. Iteration bounds are kept
in a separate record. -/
structure SolverConfig where
  epsilon : ℚ
  rank : ℤ
  tau_a : ℚ
  tau_b : ℚ
  alpha : ℚ
  deriving Repr, DecidableEq

/-- Modelled from the spec: parameter validation of the Linear Solver
Orchestrator (section 4.3), missing from src: epsilon must be nonnegative,
epsilon = 0 only with rank > 0, and rank > 0 requires balanced marginals
(tau_a = tau_b = 1); violations fail fast with a configuration error. -/
def validateLinear (cfg : SolverConfig) : Except ConfigError Unit :=
  if cfg.epsilon < 0 then .error .epsilonNegative
  else if cfg.epsilon = 0 ∧ ¬ 0 < cfg.rank then .error .epsilonZeroWithoutLowRank
  else if 0 < cfg.rank ∧ (cfg.tau_a < 1 ∨ cfg.tau_b < 1) then .error .lowRankUnbalanced
  else .ok ()

/-- Modelled from the spec: parameter validation of the Quadratic/Fused
Solver Orchestrator (sections 4.2, 4.4), missing from src: the mixing
weight alpha must lie in (0, 1]; the remaining checks mirror the linear
validation. -/
def validateQuadratic (cfg : SolverConfig) : Except ConfigError Unit :=
  if ¬ (0 < cfg.alpha ∧ cfg.alpha ≤ 1) then .error .alphaOutOfRange
  else validateLinear cfg

/-- Modelled from the spec: the Convergence Record (section 3) attached to
a solved sub-problem: converged flag, iterations used, final residual. -/
structure ConvergenceRecord where
  converged : Bool
  iterations : ℕ
  residual : ℚ
  deriving Repr, DecidableEq

/-- Modelled from the spec: the Convergence & Iteration Controller's
parameters (section 4.5). -/
structure IterBounds where
  min_iterations : ℕ
  max_iterations : ℕ
  inner_iterations : ℕ
  threshold : ℚ
  deriving Repr, DecidableEq

/-- Modelled from the spec: the Convergence & Iteration Controller
(section 4.5), missing from src. `fuel` is the number of remaining
iterations (starting at max_iterations) and `t` the number performed. At
each checkpoint (every inner_iterations steps, once min_iterations have
run) the residual is compared against the threshold; if the fuel runs out
first, the current iterate is returned with converged = false — a
reported result, never an exception. -/
def iterLoop {P : Type} (step : P → P) (res : P → ℚ) (bounds : IterBounds) :
    ℕ → ℕ → P → P × ConvergenceRecord
  | 0, t, p => (p, ⟨false, t, res p⟩)
  | fuel + 1, t, p =>
    if bounds.min_iterations ≤ t ∧ t % bounds.inner_iterations = 0 ∧
        res p < bounds.threshold
    then (p, ⟨true, t, res p⟩)
    else iterLoop step res bounds fuel (t + 1) (step p)

/-- Modelled from the spec: the Linear Solver Orchestrator's solve
(section 4.3), missing from src, abstracted over the backend kernel's
single scaling step and residual: validate the configuration, then run
the iteration controller; non-convergence is returned in the record. -/
def solveLinear {P : Type} (cfg : SolverConfig) (step : P → P) (res : P → ℚ)
    (bounds : IterBounds) (init : P) : Except ConfigError (P × ConvergenceRecord) :=
  match validateLinear cfg with
  | .error e => .error e
  | .ok _ => .ok (iterLoop step res bounds bounds.max_iterations 0 init)

/-- Modelled from the spec: the position of the first occurrence of a
label in a label sequence (pandas-style index lookup used by the Cost
Source Resolver to reindex a precomputed matrix). -/
def labelIndex (x : ℕ) : List ℕ → ℕ
  | [] => 0
  | y :: ys => if y = x then 0 else labelIndex x ys + 1

/-- Modelled from the spec: the starting row/column offset of group `i`
inside the concatenated observation sequence of all groups. -/
def groupOffset : List (List ℕ) → ℕ → ℕ
  | [], _ => 0
  | _ :: _, 0 => 0
  | g :: gs, i + 1 => g.length + groupOffset gs i

/-- Modelled from the spec: decompose a global observation position into
(group index, offset inside the group), per the block structure. -/
def locate : List (List ℕ) → ℕ → ℕ × ℕ
  | [], p => (0, p)
  | g :: gs, p =>
    if p < g.length then (0, p)
    else
      let r := locate gs (p - g.length)
      (r.1 + 1, r.2)

/-- Modelled from the spec: the np.block construction of part_000 — the
full N x N block-structured matrix covering all groups pairwise, whose
entry at global position (p, q) comes from the per-pair block addressed
by the groups containing p and q. -/
def buildBlockMatrix (groups : List (List ℕ)) (blocks : ℕ → ℕ → ℕ → ℕ → ℚ) :
    ℕ → ℕ → ℚ :=
  fun p q =>
    let ri := locate groups p
    let cj := locate groups q
    blocks ri.1 cj.1 ri.2 cj.2

/-- Modelled from the spec: the Cost Source Resolver's resolve for a
precomputed-matrix sub-block (section 4.1), missing from src: intersect
and reorder the stored matrix by looking up each source label's row and
each target label's column in the full observation sequence. -/
def resolveSubBlock (full : ℕ → ℕ → ℚ) (allLabels srcLabels tgtLabels : List ℕ) :
    ℕ → ℕ → ℚ :=
  fun a b =>
    full (labelIndex (srcLabels.getD a 0) allLabels)
      (labelIndex (tgtLabels.getD b 0) allLabels)

/-- Modelled from the spec: a literal cost matrix with explicit row and
column label sequences (the pandas DataFrame passed to set_xy/set_x/set_y
in part_000). -/
structure LabeledMatrix where
  rows : List ℕ
  cols : List ℕ
  entry : ℕ → ℕ → ℚ

/-- Modelled from the spec: the Sub-Problem State (section 3). -/
inductive Stage where
  | unprepared
  | prepared
  | solved
  | failed
  deriving Repr, DecidableEq

/-- Modelled from the spec: the full error taxonomy (section 7) as raised
by preparation, addressing and solving. -/
inductive OTError where
  | configuration (e : ConfigError)
  | alignment
  | shape
  | keyNotFound
  | notPrepared
  deriving Repr, DecidableEq

/-- Modelled from the spec: one pairwise OT sub-problem (sections 3, 4.2):
source/target observation identifiers, the stored linear (xy) and
structural (x, y) cost specifications, and the owned transport plan,
convergence record and stage. -/
structure SubProblem where
  srcNames : List ℕ
  tgtNames : List ℕ
  xy : Option LabeledMatrix
  x : Option LabeledMatrix
  y : Option LabeledMatrix
  plan : Option (ℕ → ℕ → ℚ)
  record : Option ConvergenceRecord
  stage : Stage

/-- Modelled from the spec: OTProblem.set_xy, missing from src: store a
custom linear cost matrix after checking that its row and column label
sequences exactly match, in the same order, the source and target
observation identifiers; otherwise an alignment error, never a silent
re-sort. -/
def set_xy (p : SubProblem) (m : LabeledMatrix) : Except OTError SubProblem :=
  if m.rows = p.srcNames ∧ m.cols = p.tgtNames
  then .ok { p with xy := some m } else .error .alignment

/-- Modelled from the spec: OTProblem.set_x, missing from src: the source
structural cost matrix must be indexed by the source identifiers on both
axes. -/
def set_x (p : SubProblem) (m : LabeledMatrix) : Except OTError SubProblem :=
  if m.rows = p.srcNames ∧ m.cols = p.srcNames
  then .ok { p with x := some m } else .error .alignment

/-- Modelled from the spec: OTProblem.set_y, missing from src: the target
structural cost matrix must be indexed by the target identifiers on both
axes. -/
def set_y (p : SubProblem) (m : LabeledMatrix) : Except OTError SubProblem :=
  if m.rows = p.tgtNames ∧ m.cols = p.tgtNames
  then .ok { p with y := some m } else .error .alignment

/-- Modelled from the spec: prepare (section 4.2), missing from src:
validate all three cost specifications against the current group label
sequences, store them, discard any prior plan and record, and transition
to prepared. -/
def prepare (p : SubProblem) (mxy mx my : LabeledMatrix) :
    Except OTError SubProblem :=
  if (mxy.rows = p.srcNames ∧ mxy.cols = p.tgtNames) ∧
      (mx.rows = p.srcNames ∧ mx.cols = p.srcNames) ∧
      (my.rows = p.tgtNames ∧ my.cols = p.tgtNames)
  then .ok { p with
    xy := some mxy
    x := some mx
    y := some my
    plan := none
    record := none
    stage := .prepared }
  else .error .alignment

/-- Modelled from the spec: the linearized cost of one outer quadratic
step (section 4.4): with mixing weight 1 the linear-term computation is
skipped entirely; otherwise the convex blend of the quadratic
linearization and the linear term (an absent linear term contributes
zero). -/
def linearizedCost (alpha : ℚ) (g : ℕ → ℕ → ℚ) (lin : Option (ℕ → ℕ → ℚ)) :
    ℕ → ℕ → ℚ :=
  if alpha = 1 then g
  else fun i j => alpha * g i j + (1 - alpha) * (lin.getD (fun _ _ => 0)) i j

/-- Modelled from the spec: the Quadratic/Fused Solver Orchestrator's
outer loop (section 4.4), missing from src, abstracted over the backend's
quadratic linearization and nested linear solve: at every step linearize
around the current plan, blend with the linear term, delegate to the
linear solve, under the shared iteration controller. -/
def runOuter (cfg : SolverConfig)
    (lineariz : (ℕ → ℕ → ℚ) → (ℕ → ℕ → ℚ) → (ℕ → ℕ → ℚ) → ℕ → ℕ → ℚ)
    (innerSolve : (ℕ → ℕ → ℚ) → (ℕ → ℕ → ℚ) → ℕ → ℕ → ℚ)
    (res : (ℕ → ℕ → ℚ) → ℚ) (cx cy : ℕ → ℕ → ℚ) (lin : Option (ℕ → ℕ → ℚ))
    (bounds : IterBounds) (init : ℕ → ℕ → ℚ) :
    (ℕ → ℕ → ℚ) × ConvergenceRecord :=
  iterLoop
    (fun plan => innerSolve (linearizedCost cfg.alpha (lineariz cx cy plan) lin) plan)
    res bounds bounds.max_iterations 0 init

/-- Modelled from the spec: solve on a sub-problem (sections 4.2, 4.4):
validate the configuration first (fail fast, no state change), require
the structural specifications to be present, run the orchestrator, and
store the plan and record with stage solved — also when the record
reports non-convergence. -/
def solveProblem (p : SubProblem) (cfg : SolverConfig) (bounds : IterBounds)
    (lineariz : (ℕ → ℕ → ℚ) → (ℕ → ℕ → ℚ) → (ℕ → ℕ → ℚ) → ℕ → ℕ → ℚ)
    (innerSolve : (ℕ → ℕ → ℚ) → (ℕ → ℕ → ℚ) → ℕ → ℕ → ℚ)
    (res : (ℕ → ℕ → ℚ) → ℚ) (init : ℕ → ℕ → ℚ) : Except OTError SubProblem :=
  match validateQuadratic cfg with
  | .error e => .error (.configuration e)
  | .ok _ =>
    match p.x, p.y with
    | some mx, some my =>
      let r := runOuter cfg lineariz innerSolve res mx.entry my.entry
        (p.xy.map LabeledMatrix.entry) bounds init
      .ok { p with plan := some r.1, record := some r.2, stage := .solved }
    | _, _ => .error .notPrepared

/-- A Sub-Problem Key: an ordered (source group, target group) pair. -/
abbrev SubKey := ℕ × ℕ

/-- Modelled from the spec: the Pairwise Problem Registry (section 4.2):
an indexed set of independently addressable sub-problems. -/
structure Registry where
  problems : SubKey → Option SubProblem

/-- Replace the sub-problem stored at one key, leaving every other key
untouched. -/
def updateAt (r : Registry) (k : SubKey) (p : SubProblem) : Registry :=
  ⟨fun k2 => if k2 = k then some p else r.problems k2⟩

/-- Modelled from the spec: addressing plus per-key modification: fetch
the sub-problem at a key (a key error if the partition policy never
enumerated it), apply the operation, and store the result back at that
key only. -/
def modifyAt (r : Registry) (k : SubKey)
    (op : SubProblem → Except OTError SubProblem) : Except OTError Registry :=
  match r.problems k with
  | none => .error .keyNotFound
  | some p => (op p).map (updateAt r k)

/-- set_xy on the sub-problem addressed by a key. -/
def setXYAt (r : Registry) (k : SubKey) (m : LabeledMatrix) :
    Except OTError Registry :=
  modifyAt r k (fun p => set_xy p m)

/-- set_x on the sub-problem addressed by a key. -/
def setXAt (r : Registry) (k : SubKey) (m : LabeledMatrix) :
    Except OTError Registry :=
  modifyAt r k (fun p => set_x p m)

/-- set_y on the sub-problem addressed by a key. -/
def setYAt (r : Registry) (k : SubKey) (m : LabeledMatrix) :
    Except OTError Registry :=
  modifyAt r k (fun p => set_y p m)

/-- solve on the sub-problem addressed by a key. -/
def solveAt (r : Registry) (k : SubKey) (cfg : SolverConfig)
    (bounds : IterBounds)
    (lineariz : (ℕ → ℕ → ℚ) → (ℕ → ℕ → ℚ) → (ℕ → ℕ → ℚ) → ℕ → ℕ → ℚ)
    (innerSolve : (ℕ → ℕ → ℚ) → (ℕ → ℕ → ℚ) → ℕ → ℕ → ℚ)
    (res : (ℕ → ℕ → ℚ) → ℚ) (init : ℕ → ℕ → ℚ) : Except OTError Registry :=
  modifyAt r k (fun p => solveProblem p cfg bounds lineariz innerSolve res init)

/-- The transport plan of a solve outcome, when it produced one. -/
def planOf : Except OTError SubProblem → Option (ℕ → ℕ → ℚ)
  | .ok p => p.plan
  | .error _ => none

/-- The convergence record of a solve outcome, when it produced one. -/
def recordOf : Except OTError SubProblem → Option ConvergenceRecord
  | .ok p => p.record
  | .error _ => none

/-- The stage of the sub-problem after an operation, when it succeeded. -/
def stageOf : Except OTError SubProblem → Option Stage
  | .ok p => some p.stage
  | .error _ => none

/-- The converged flag of a solve outcome, when it produced a record. -/
def convergedOf : Except OTError SubProblem → Option Bool
  | .ok p => p.record.map (fun r => r.converged)
  | .error _ => none

/-- Modelled from the spec: the prepare-then-solve pipeline on a single
sub-problem. -/
def pipeline (p : SubProblem) (mxy mx my : LabeledMatrix) (cfg : SolverConfig)
    (bounds : IterBounds)
    (lineariz : (ℕ → ℕ → ℚ) → (ℕ → ℕ → ℚ) → (ℕ → ℕ → ℚ) → ℕ → ℕ → ℚ)
    (innerSolve : (ℕ → ℕ → ℚ) → (ℕ → ℕ → ℚ) → ℕ → ℕ → ℚ)
    (res : (ℕ → ℕ → ℚ) → ℚ) (init : ℕ → ℕ → ℚ) : Except OTError SubProblem :=
  (prepare p mxy mx my).bind
    (fun q => solveProblem q cfg bounds lineariz innerSolve res init)

/-- A fresh, unprepared sub-problem over the given observation names. -/
def freshProblem (src tgt : List ℕ) : SubProblem :=
  ⟨src, tgt, none, none, none, none, none, .unprepared⟩

/-- A two-pair registry mirroring the notebook's partition into the
sequential keys (0, 1) and (1, 2). -/
def sampleRegistry : Registry :=
  ⟨fun k =>
    if k = (0, 1) then some (freshProblem [0, 1] [2, 3])
    else if k = (1, 2) then some (freshProblem [2, 3] [4, 5])
    else none⟩

end Moscot

namespace Moscot

/-- When the residual never passes the threshold, the controller runs its
full fuel and reports converged = false with the final iterate. -/
theorem iterLoop_exhaust {P : Type} (step : P → P) (res : P → ℚ)
    (bounds : IterBounds) (hmiss : ∀ p : P, ¬ res p < bounds.threshold) :
    ∀ fuel t p, iterLoop step res bounds fuel t p =
      (step^[fuel] p, ⟨false, t + fuel, res (step^[fuel] p)⟩) := by
  intro fuel
  induction fuel with
  | zero => intro t p; simp [iterLoop]
  | succ n ih =>
    intro t p
    rw [iterLoop, if_neg (fun h => hmiss p h.2.2), ih (t + 1) (step p)]
    rw [Function.iterate_succ_apply]
    have ht : t + 1 + n = t + (n + 1) := by omega
    rw [ht]

/-- Looking a label up in an appended sequence finds it in the left part
when it occurs there. -/
theorem labelIndex_append_left {x : ℕ} {l₁ : List ℕ} (l₂ : List ℕ) (hx : x ∈ l₁) :
    labelIndex x (l₁ ++ l₂) = labelIndex x l₁ := by
  induction l₁ with
  | nil => exact absurd hx (List.not_mem_nil x)
  | cons y ys ih =>
    rw [List.cons_append, labelIndex, labelIndex]
    by_cases h : y = x
    · rw [if_pos h, if_pos h]
    · rw [if_neg h, if_neg h,
        ih ((List.mem_cons.mp hx).resolve_left (fun hxy => h hxy.symm))]

/-- Looking a label up in an appended sequence skips the left part when
the label does not occur there. -/
theorem labelIndex_append_right {x : ℕ} {l₁ : List ℕ} (l₂ : List ℕ) (hx : x ∉ l₁) :
    labelIndex x (l₁ ++ l₂) = l₁.length + labelIndex x l₂ := by
  induction l₁ with
  | nil => rw [List.nil_append, List.length_nil, Nat.zero_add]
  | cons y ys ih =>
    have hyx : ¬ y = x := fun h => hx (h ▸ List.mem_cons_self y ys)
    rw [List.cons_append, labelIndex, if_neg hyx,
      ih (fun h => hx (List.mem_cons_of_mem y h)), List.length_cons]
    omega

/-- In a duplicate-free label sequence, the index of the a-th label is a. -/
theorem labelIndex_getD {l : List ℕ} (hnd : l.Nodup) :
    ∀ {a : ℕ}, a < l.length → labelIndex (l.getD a 0) l = a := by
  induction l with
  | nil => intro a ha; exact absurd ha (by simp)
  | cons y ys ih =>
    intro a ha
    match a with
    | 0 => rw [List.getD_cons_zero, labelIndex, if_pos rfl]
    | a + 1 =>
      have ha' : a < ys.length := by simpa using ha
      have hx : ys.getD a 0 ∈ ys := by
        rw [List.getD_eq_getElem _ _ ha']
        exact List.getElem_mem ha'
      have hyx : ¬ y = ys.getD a 0 :=
        fun h => (List.nodup_cons.mp hnd).1 (h ▸ hx)
      rw [List.getD_cons_succ, labelIndex, if_neg hyx,
        ih (List.nodup_cons.mp hnd).2 ha']

/-- The position, in the concatenated observation sequence, of the a-th
label of group i is the group's offset plus a. -/
theorem labelIndex_flatten (groups : List (List ℕ)) (hnd : groups.flatten.Nodup) :
    ∀ i a, i < groups.length → a < (groups.getD i []).length →
      labelIndex ((groups.getD i []).getD a 0) groups.flatten =
        groupOffset groups i + a := by
  induction groups with
  | nil => intro i a hi _; exact absurd hi (by simp)
  | cons g gs ih =>
    intro i a hi ha
    rw [List.flatten_cons] at hnd ⊢
    obtain ⟨hg, hgs, hdisj⟩ := List.nodup_append.mp hnd
    match i with
    | 0 =>
      rw [List.getD_cons_zero] at ha ⊢
      have hx : g.getD a 0 ∈ g := by
        rw [List.getD_eq_getElem _ _ ha]
        exact List.getElem_mem ha
      rw [labelIndex_append_left _ hx, labelIndex_getD hg ha, groupOffset,
        Nat.zero_add]
    | i + 1 =>
      rw [List.getD_cons_succ] at ha ⊢
      have hi' : i < gs.length := by simpa using hi
      have hmem : (gs.getD i []).getD a 0 ∈ gs.flatten := by
        apply List.mem_flatten.mpr
        refine ⟨gs.getD i [], ?_, ?_⟩
        · rw [List.getD_eq_getElem _ _ hi']
          exact List.getElem_mem hi'
        · rw [List.getD_eq_getElem _ _ ha]
          exact List.getElem_mem ha
      have hnotg : (gs.getD i []).getD a 0 ∉ g :=
        fun hin => hdisj hin hmem
      rw [labelIndex_append_right _ hnotg, ih hgs i a hi' ha, groupOffset]
      omega

/-- Decomposing (group offset + a) recovers the group index and the
offset a inside the group. -/
theorem locate_groupOffset (groups : List (List ℕ)) :
    ∀ i a, i < groups.length → a < (groups.getD i []).length →
      locate groups (groupOffset groups i + a) = (i, a) := by
  induction groups with
  | nil => intro i a hi _; exact absurd hi (by simp)
  | cons g gs ih =>
    intro i a hi ha
    match i with
    | 0 =>
      rw [List.getD_cons_zero] at ha
      rw [groupOffset, Nat.zero_add, locate, if_pos ha]
    | i + 1 =>
      rw [List.getD_cons_succ] at ha
      have hi' : i < gs.length := by simpa using hi
      rw [groupOffset, locate, if_neg (by omega)]
      have harg : g.length + groupOffset gs i + a - g.length =
          groupOffset gs i + a := by omega
      rw [Nat.add_assoc] at harg ⊢
      rw [harg, ih i a hi' ha]

/-- C1: for a full block matrix assembled from per-pair blocks over
pairwise-distinct group label sequences, resolving the sub-block addressed
by the (source, target) group labels reproduces the originally inserted
block entry for entry (round-trip of build-then-extract). -/
theorem resolve_block_roundtrip (groups : List (List ℕ))
    (blocks : ℕ → ℕ → ℕ → ℕ → ℚ) (hnd : groups.flatten.Nodup) (i j a b : ℕ)
    (hi : i < groups.length) (hj : j < groups.length)
    (ha : a < (groups.getD i []).length) (hb : b < (groups.getD j []).length) :
    resolveSubBlock (buildBlockMatrix groups blocks) groups.flatten
      (groups.getD i []) (groups.getD j []) a b = blocks i j a b := by
  unfold resolveSubBlock buildBlockMatrix
  rw [labelIndex_flatten groups hnd i a hi ha,
    labelIndex_flatten groups hnd j b hj hb,
    locate_groupOffset groups i a hi ha,
    locate_groupOffset groups j b hj hb]

/-- Concrete witness for C1: two groups with labels [0, 1] and [2, 3]; the
(0, 1) sub-block of the assembled block matrix returns the inserted block
entry at (1, 0). -/
theorem resolve_block_roundtrip_witness :
    ([[0, 1], [2, 3]] : List (List ℕ)).flatten.Nodup ∧
    resolveSubBlock
        (buildBlockMatrix [[0, 1], [2, 3]]
          (fun i j a b => (i * 1000 + j * 100 + a * 10 + b : ℚ)))
        ([[0, 1], [2, 3]] : List (List ℕ)).flatten
        (([[0, 1], [2, 3]] : List (List ℕ)).getD 0 [])
        (([[0, 1], [2, 3]] : List (List ℕ)).getD 1 []) 1 0 =
      (fun i j a b => (i * 1000 + j * 100 + a * 10 + b : ℚ)) 0 1 1 0 :=
  ⟨by decide,
    resolve_block_roundtrip [[0, 1], [2, 3]]
      (fun i j a b => (i * 1000 + j * 100 + a * 10 + b : ℚ)) (by decide)
      0 1 1 0 (by decide) (by decide) (by decide) (by decide)⟩

/-- C2: a linear solve invocation whose residual never meets the threshold
exhausts max_iterations and returns Except.ok with the (non-converged)
final transport iterate and a record with converged = false — no
exception is raised on non-convergence. -/
theorem solve_nonconvergence_is_result {P : Type} (cfg : SolverConfig)
    (step : P → P) (res : P → ℚ) (bounds : IterBounds) (init : P)
    (hval : validateLinear cfg = .ok ())
    (hmiss : ∀ p : P, ¬ res p < bounds.threshold) :
    solveLinear cfg step res bounds init =
      .ok (step^[bounds.max_iterations] init,
        ⟨false, bounds.max_iterations, res (step^[bounds.max_iterations] init)⟩) := by
  unfold solveLinear
  rw [hval, iterLoop_exhaust step res bounds hmiss bounds.max_iterations 0 init]
  rw [Nat.zero_add]

/-- Concrete witness for C2: residual constantly 1, threshold 0,
max_iterations = 2; solve returns ok with converged = false. -/
theorem solve_nonconvergence_is_result_witness :
    validateLinear ⟨1, -1, 1, 1, 1⟩ = .ok () ∧
    (∀ p : ℚ, ¬ (fun _ : ℚ => (1 : ℚ)) p < (⟨0, 2, 1, 0⟩ : IterBounds).threshold) ∧
    solveLinear ⟨1, -1, 1, 1, 1⟩ (fun p => p + 1) (fun _ : ℚ => (1 : ℚ))
        ⟨0, 2, 1, 0⟩ (0 : ℚ) =
      .ok ((fun p => p + 1)^[(⟨0, 2, 1, 0⟩ : IterBounds).max_iterations] (0 : ℚ),
        ⟨false, (⟨0, 2, 1, 0⟩ : IterBounds).max_iterations,
          (fun _ : ℚ => (1 : ℚ))
            ((fun p => p + 1)^[(⟨0, 2, 1, 0⟩ : IterBounds).max_iterations] (0 : ℚ))⟩) :=
  ⟨by rfl, fun p => by norm_num,
    solve_nonconvergence_is_result ⟨1, -1, 1, 1, 1⟩ (fun p => p + 1)
      (fun _ : ℚ => (1 : ℚ)) ⟨0, 2, 1, 0⟩ (0 : ℚ) (by rfl)
      (fun p => by norm_num)⟩

/-- C3: a solve invocation with rank > 0 and relaxed marginals
(tau_a < 1 or tau_b < 1) is rejected with a ConfigurationError before any
numerical work, by both the linear and the quadratic validation,
regardless of all other parameters. -/
theorem lowrank_unbalanced_rejected (cfg : SolverConfig)
    (hr : 0 < cfg.rank) (hu : cfg.tau_a < 1 ∨ cfg.tau_b < 1) :
    (∃ e, validateLinear cfg = .error e) ∧
    (∃ e, validateQuadratic cfg = .error e) := by
  have hlin : ∃ e, validateLinear cfg = .error e := by
    unfold validateLinear
    split_ifs with h1 h2 h3
    · exact ⟨_, rfl⟩
    · exact ⟨_, rfl⟩
    · exact ⟨_, rfl⟩
    · exact absurd ⟨hr, hu⟩ h3
  refine ⟨hlin, ?_⟩
  unfold validateQuadratic
  split_ifs with h0
  · exact hlin
  · exact ⟨_, rfl⟩

/-- Concrete witness for C3: epsilon = 1, rank = 3, tau_a = 1/2. -/
theorem lowrank_unbalanced_rejected_witness :
    (0 < (⟨1, 3, 1/2, 1, 1⟩ : SolverConfig).rank) ∧
    ((⟨1, 3, 1/2, 1, 1⟩ : SolverConfig).tau_a < 1 ∨
      (⟨1, 3, 1/2, 1, 1⟩ : SolverConfig).tau_b < 1) ∧
    ((∃ e, validateLinear ⟨1, 3, 1/2, 1, 1⟩ = .error e) ∧
      (∃ e, validateQuadratic ⟨1, 3, 1/2, 1, 1⟩ = .error e)) :=
  ⟨by decide, Or.inl (by norm_num),
    lowrank_unbalanced_rejected ⟨1, 3, 1/2, 1, 1⟩ (by decide) (Or.inl (by norm_num))⟩

/-- C4: a fused quadratic solve invocation with alpha = 0 is rejected with
a ConfigurationError regardless of all other parameters. -/
theorem alpha_zero_rejected (cfg : SolverConfig) (ha : cfg.alpha = 0) :
    validateQuadratic cfg = .error .alphaOutOfRange := by
  unfold validateQuadratic
  rw [if_pos]
  intro ⟨h0, _⟩
  rw [ha] at h0
  exact lt_irrefl 0 h0

/-- Concrete witness for C4: alpha = 0 with otherwise benign parameters. -/
theorem alpha_zero_rejected_witness :
    ((⟨1, -1, 1, 1, 0⟩ : SolverConfig).alpha = 0) ∧
    validateQuadratic ⟨1, -1, 1, 1, 0⟩ = .error .alphaOutOfRange :=
  ⟨rfl, alpha_zero_rejected ⟨1, -1, 1, 1, 0⟩ rfl⟩

/-- C5: with balanced marginals, a linear solve invocation with
epsilon = 0 passes configuration validation if and only if rank > 0; in
particular epsilon = 0 without positive rank is a ConfigurationError,
and epsilon = 0 with positive rank is accepted. -/
theorem epsilon_zero_iff_lowrank (cfg : SolverConfig)
    (hba : cfg.tau_a = 1) (hbb : cfg.tau_b = 1) (he : cfg.epsilon = 0) :
    (validateLinear cfg = .ok () ↔ 0 < cfg.rank) ∧
    (¬ 0 < cfg.rank → validateLinear cfg = .error .epsilonZeroWithoutLowRank) := by
  have hnn : ¬ cfg.epsilon < 0 := by rw [he]; exact lt_irrefl 0
  have hnu : ¬ (cfg.tau_a < 1 ∨ cfg.tau_b < 1) := by
    rw [hba, hbb]
    rintro (h | h) <;> exact lt_irrefl 1 h
  constructor
  · constructor
    · intro hok
      by_contra hnr
      unfold validateLinear at hok
      rw [if_neg hnn, if_pos ⟨he, hnr⟩] at hok
      exact Except.noConfusion hok
    · intro hr
      unfold validateLinear
      rw [if_neg hnn, if_neg (fun h => h.2 hr), if_neg (fun h => hnu h.2)]
  · intro hnr
    unfold validateLinear
    rw [if_neg hnn, if_pos ⟨he, hnr⟩]

/-- Concrete witness for C5: epsilon = 0 with rank = 3 is accepted. -/
theorem epsilon_zero_iff_lowrank_witness :
    ((⟨0, 3, 1, 1, 1⟩ : SolverConfig).tau_a = 1) ∧
    ((⟨0, 3, 1, 1, 1⟩ : SolverConfig).tau_b = 1) ∧
    ((⟨0, 3, 1, 1, 1⟩ : SolverConfig).epsilon = 0) ∧
    ((validateLinear ⟨0, 3, 1, 1, 1⟩ = .ok () ↔ 0 < (⟨0, 3, 1, 1, 1⟩ : SolverConfig).rank) ∧
      (¬ 0 < (⟨0, 3, 1, 1, 1⟩ : SolverConfig).rank →
        validateLinear ⟨0, 3, 1, 1, 1⟩ = .error .epsilonZeroWithoutLowRank)) :=
  ⟨rfl, rfl, rfl, epsilon_zero_iff_lowrank ⟨0, 3, 1, 1, 1⟩ rfl rfl rfl⟩

/-- With mixing weight 1 the linearized cost ignores the attached linear
term, so the whole outer loop does. -/
theorem runOuter_alpha_one (cfg : SolverConfig) (hα : cfg.alpha = 1)
    (lz : (ℕ → ℕ → ℚ) → (ℕ → ℕ → ℚ) → (ℕ → ℕ → ℚ) → ℕ → ℕ → ℚ)
    (inn : (ℕ → ℕ → ℚ) → (ℕ → ℕ → ℚ) → ℕ → ℕ → ℚ)
    (res : (ℕ → ℕ → ℚ) → ℚ) (cx cy : ℕ → ℕ → ℚ)
    (l₁ l₂ : Option (ℕ → ℕ → ℚ)) (bounds : IterBounds) (init : ℕ → ℕ → ℚ) :
    runOuter cfg lz inn res cx cy l₁ bounds init =
      runOuter cfg lz inn res cx cy l₂ bounds init := by
  unfold runOuter
  have hstep :
      (fun plan => inn (linearizedCost cfg.alpha (lz cx cy plan) l₁) plan) =
        fun plan => inn (linearizedCost cfg.alpha (lz cx cy plan) l₂) plan := by
    funext plan
    rw [linearizedCost, if_pos hα, linearizedCost, if_pos hα]
  rw [hstep]

/-- C6: with mixing weight alpha = 1, the transport plan produced by the
quadratic orchestrator is independent of the attached linear cost
specification — even a malformed or absent one — since the linear-term
computation is skipped: two solves differing only in the linear
specification return the same plan. -/
theorem alpha_one_ignores_linear (src tgt : List ℕ)
    (l₁ l₂ sx sy : Option LabeledMatrix) (pl : Option (ℕ → ℕ → ℚ))
    (rc : Option ConvergenceRecord) (st : Stage) (cfg : SolverConfig)
    (hα : cfg.alpha = 1) (bounds : IterBounds)
    (lz : (ℕ → ℕ → ℚ) → (ℕ → ℕ → ℚ) → (ℕ → ℕ → ℚ) → ℕ → ℕ → ℚ)
    (inn : (ℕ → ℕ → ℚ) → (ℕ → ℕ → ℚ) → ℕ → ℕ → ℚ)
    (res : (ℕ → ℕ → ℚ) → ℚ) (init : ℕ → ℕ → ℚ) :
    planOf (solveProblem ⟨src, tgt, l₁, sx, sy, pl, rc, st⟩ cfg bounds
        lz inn res init) =
      planOf (solveProblem ⟨src, tgt, l₂, sx, sy, pl, rc, st⟩ cfg bounds
        lz inn res init) := by
  unfold solveProblem
  cases hv : validateQuadratic cfg with
  | error e => rfl
  | ok u =>
    cases sx with
    | none => rfl
    | some mx =>
      cases sy with
      | none => rfl
      | some my =>
        have hrw := runOuter_alpha_one cfg hα lz inn res mx.entry my.entry
          (l₁.map LabeledMatrix.entry) (l₂.map LabeledMatrix.entry) bounds init
        simp only [hrw]
        rfl

/-- Concrete witness for C6: one run with a linear matrix attached, one
with it absent; alpha = 1 gives the same plan. -/
theorem alpha_one_ignores_linear_witness :
    ((⟨1, -1, 1, 1, 1⟩ : SolverConfig).alpha = 1) ∧
    planOf (solveProblem
        ⟨[0], [1], some ⟨[0], [1], fun _ _ => 5⟩,
          some ⟨[0], [0], fun _ _ => 1⟩, some ⟨[1], [1], fun _ _ => 2⟩,
          none, none, .prepared⟩
        ⟨1, -1, 1, 1, 1⟩ ⟨0, 1, 1, 0⟩ (fun _ _ _ => fun _ _ => 0)
        (fun _ pl => pl) (fun _ => 1) (fun _ _ => 0)) =
      planOf (solveProblem
        ⟨[0], [1], none,
          some ⟨[0], [0], fun _ _ => 1⟩, some ⟨[1], [1], fun _ _ => 2⟩,
          none, none, .prepared⟩
        ⟨1, -1, 1, 1, 1⟩ ⟨0, 1, 1, 0⟩ (fun _ _ _ => fun _ _ => 0)
        (fun _ pl => pl) (fun _ => 1) (fun _ _ => 0)) :=
  ⟨rfl,
    alpha_one_ignores_linear [0] [1] (some ⟨[0], [1], fun _ _ => 5⟩) none
      (some ⟨[0], [0], fun _ _ => 1⟩) (some ⟨[1], [1], fun _ _ => 2⟩)
      none none .prepared ⟨1, -1, 1, 1, 1⟩ rfl ⟨0, 1, 1, 0⟩
      (fun _ _ _ => fun _ _ => 0) (fun _ pl => pl) (fun _ => 1)
      (fun _ _ => 0)⟩

/-- C7: a cost specification whose row or column label sequence does not
match the source/target observation identifiers in the same order is
rejected by set_xy with an alignment error, never silently re-sorted. -/
theorem mismatched_labels_alignment_error (p : SubProblem) (m : LabeledMatrix)
    (hmis : m.rows ≠ p.srcNames ∨ m.cols ≠ p.tgtNames) :
    set_xy p m = .error .alignment := by
  unfold set_xy
  rw [if_neg]
  rintro ⟨h1, h2⟩
  rcases hmis with h | h
  · exact h h1
  · exact h h2

/-- Concrete witness for C7: target columns shuffled relative to the
target observation order. -/
theorem mismatched_labels_alignment_error_witness :
    ((⟨[0, 1], [3, 2], fun _ _ => 1⟩ : LabeledMatrix).rows ≠
        (freshProblem [0, 1] [2, 3]).srcNames ∨
      (⟨[0, 1], [3, 2], fun _ _ => 1⟩ : LabeledMatrix).cols ≠
        (freshProblem [0, 1] [2, 3]).tgtNames) ∧
    set_xy (freshProblem [0, 1] [2, 3]) ⟨[0, 1], [3, 2], fun _ _ => 1⟩ =
      .error .alignment :=
  ⟨Or.inr (by decide),
    mismatched_labels_alignment_error (freshProblem [0, 1] [2, 3])
      ⟨[0, 1], [3, 2], fun _ _ => 1⟩ (Or.inr (by decide))⟩

/-- Modifying one key of the registry leaves every other key's stored
sub-problem untouched, whatever the operation and its outcome. -/
theorem modifyAt_frame (r : Registry) (k k' : SubKey)
    (op : SubProblem → Except OTError SubProblem) (hne : k' ≠ k) :
    (modifyAt r k op).map (fun r' => r'.problems k') =
      (modifyAt r k op).map (fun _ => r.problems k') := by
  unfold modifyAt
  cases hp : r.problems k with
  | none => rfl
  | some p =>
    cases hop : op p with
    | error e => simp [hop, Except.map]
    | ok q => simp [hop, Except.map, updateAt, if_neg hne]

/-- C8: sub-problems are stateless with respect to each other: overriding
one sub-problem's cost matrices via set_xy/set_x/set_y, or solving it,
leaves every distinct key's stored sub-problem (its cost specifications,
transport plan and convergence record) unchanged. -/
theorem subproblem_independence (r : Registry) (k k' : SubKey)
    (mxy mx my : LabeledMatrix) (cfg : SolverConfig) (bounds : IterBounds)
    (lz : (ℕ → ℕ → ℚ) → (ℕ → ℕ → ℚ) → (ℕ → ℕ → ℚ) → ℕ → ℕ → ℚ)
    (inn : (ℕ → ℕ → ℚ) → (ℕ → ℕ → ℚ) → ℕ → ℕ → ℚ)
    (res : (ℕ → ℕ → ℚ) → ℚ) (init : ℕ → ℕ → ℚ) (hne : k' ≠ k) :
    (setXYAt r k mxy).map (fun r' => r'.problems k') =
        (setXYAt r k mxy).map (fun _ => r.problems k') ∧
    (setXAt r k mx).map (fun r' => r'.problems k') =
        (setXAt r k mx).map (fun _ => r.problems k') ∧
    (setYAt r k my).map (fun r' => r'.problems k') =
        (setYAt r k my).map (fun _ => r.problems k') ∧
    (solveAt r k cfg bounds lz inn res init).map (fun r' => r'.problems k') =
        (solveAt r k cfg bounds lz inn res init).map (fun _ => r.problems k') :=
  ⟨modifyAt_frame r k k' _ hne, modifyAt_frame r k k' _ hne,
    modifyAt_frame r k k' _ hne, modifyAt_frame r k k' _ hne⟩

/-- Concrete witness for C8: modifying key (0, 1) of the sample registry
leaves key (1, 2) untouched. -/
theorem subproblem_independence_witness :
    (((1, 2) : SubKey) ≠ ((0, 1) : SubKey)) ∧
    ((setXYAt sampleRegistry (0, 1) ⟨[0, 1], [2, 3], fun _ _ => 1⟩).map
          (fun r' => r'.problems (1, 2)) =
        (setXYAt sampleRegistry (0, 1) ⟨[0, 1], [2, 3], fun _ _ => 1⟩).map
          (fun _ => sampleRegistry.problems (1, 2)) ∧
      (setXAt sampleRegistry (0, 1) ⟨[0, 1], [0, 1], fun _ _ => 1⟩).map
          (fun r' => r'.problems (1, 2)) =
        (setXAt sampleRegistry (0, 1) ⟨[0, 1], [0, 1], fun _ _ => 1⟩).map
          (fun _ => sampleRegistry.problems (1, 2)) ∧
      (setYAt sampleRegistry (0, 1) ⟨[2, 3], [2, 3], fun _ _ => 1⟩).map
          (fun r' => r'.problems (1, 2)) =
        (setYAt sampleRegistry (0, 1) ⟨[2, 3], [2, 3], fun _ _ => 1⟩).map
          (fun _ => sampleRegistry.problems (1, 2)) ∧
      (solveAt sampleRegistry (0, 1) ⟨1, -1, 1, 1, 1⟩ ⟨0, 1, 1, 0⟩
            (fun _ _ _ => fun _ _ => 0) (fun _ pl => pl) (fun _ => 1)
            (fun _ _ => 0)).map (fun r' => r'.problems (1, 2)) =
        (solveAt sampleRegistry (0, 1) ⟨1, -1, 1, 1, 1⟩ ⟨0, 1, 1, 0⟩
            (fun _ _ _ => fun _ _ => 0) (fun _ pl => pl) (fun _ => 1)
            (fun _ _ => 0)).map (fun _ => sampleRegistry.problems (1, 2))) :=
  ⟨by decide,
    subproblem_independence sampleRegistry (0, 1) (1, 2)
      ⟨[0, 1], [2, 3], fun _ _ => 1⟩ ⟨[0, 1], [0, 1], fun _ _ => 1⟩
      ⟨[2, 3], [2, 3], fun _ _ => 1⟩ ⟨1, -1, 1, 1, 1⟩ ⟨0, 1, 1, 0⟩
      (fun _ _ _ => fun _ _ => 0) (fun _ pl => pl) (fun _ => 1)
      (fun _ _ => 0) (by decide)⟩

/-- C9: the prepare-then-solve pipeline is deterministic and idempotent:
running prepare and solve a second time, with identical cost
specifications and identical solver parameters, on the outcome of a first
prepare-then-solve run reproduces exactly the same transport plan and the
same convergence record (and failures propagate identically). -/
theorem pipeline_idempotent (p : SubProblem) (mxy mx my : LabeledMatrix)
    (cfg : SolverConfig) (bounds : IterBounds)
    (lz : (ℕ → ℕ → ℚ) → (ℕ → ℕ → ℚ) → (ℕ → ℕ → ℚ) → ℕ → ℕ → ℚ)
    (inn : (ℕ → ℕ → ℚ) → (ℕ → ℕ → ℚ) → ℕ → ℕ → ℚ)
    (res : (ℕ → ℕ → ℚ) → ℚ) (init : ℕ → ℕ → ℚ) :
    planOf ((pipeline p mxy mx my cfg bounds lz inn res init).bind
        (fun q => pipeline q mxy mx my cfg bounds lz inn res init)) =
      planOf (pipeline p mxy mx my cfg bounds lz inn res init) ∧
    recordOf ((pipeline p mxy mx my cfg bounds lz inn res init).bind
        (fun q => pipeline q mxy mx my cfg bounds lz inn res init)) =
      recordOf (pipeline p mxy mx my cfg bounds lz inn res init) := by
  by_cases hA : (mxy.rows = p.srcNames ∧ mxy.cols = p.tgtNames) ∧
      (mx.rows = p.srcNames ∧ mx.cols = p.srcNames) ∧
      (my.rows = p.tgtNames ∧ my.cols = p.tgtNames)
  · unfold pipeline prepare solveProblem
    cases hv : validateQuadratic cfg with
    | error e => simp [Except.bind, planOf, recordOf, hA]
    | ok u => simp [Except.bind, planOf, recordOf, hA]
  · unfold pipeline prepare
    rw [if_neg hA]
    simp [Except.bind, planOf, recordOf]

/-- A successful solve always leaves the sub-problem in stage solved. -/
theorem solveProblem_stage (p : SubProblem) (cfg : SolverConfig)
    (bounds : IterBounds)
    (lz : (ℕ → ℕ → ℚ) → (ℕ → ℕ → ℚ) → (ℕ → ℕ → ℚ) → ℕ → ℕ → ℚ)
    (inn : (ℕ → ℕ → ℚ) → (ℕ → ℕ → ℚ) → ℕ → ℕ → ℚ)
    (res : (ℕ → ℕ → ℚ) → ℚ) (init : ℕ → ℕ → ℚ) (q : SubProblem)
    (h : solveProblem p cfg bounds lz inn res init = .ok q) :
    q.stage = .solved := by
  unfold solveProblem at h
  split at h
  · exact Except.noConfusion h
  · split at h
    · injection h with h'
      rw [← h']
    · exact Except.noConfusion h

/-- C10: when solve completes with a non-converged record, the
sub-problem's stage is solved, not failed: numerical non-convergence does
not reach the failed state. -/
theorem nonconverged_stage_solved (p : SubProblem) (cfg : SolverConfig)
    (bounds : IterBounds)
    (lz : (ℕ → ℕ → ℚ) → (ℕ → ℕ → ℚ) → (ℕ → ℕ → ℚ) → ℕ → ℕ → ℚ)
    (inn : (ℕ → ℕ → ℚ) → (ℕ → ℕ → ℚ) → ℕ → ℕ → ℚ)
    (res : (ℕ → ℕ → ℚ) → ℚ) (init : ℕ → ℕ → ℚ)
    (hnc : convergedOf (solveProblem p cfg bounds lz inn res init) =
      some false) :
    stageOf (solveProblem p cfg bounds lz inn res init) = some Stage.solved ∧
    stageOf (solveProblem p cfg bounds lz inn res init) ≠ some Stage.failed := by
  cases hres : solveProblem p cfg bounds lz inn res init with
  | error e =>
    rw [hres] at hnc
    exact absurd hnc (by simp [convergedOf])
  | ok q =>
    have hst := solveProblem_stage p cfg bounds lz inn res init q hres
    constructor
    · simp [stageOf, hst]
    · simp [stageOf, hst]

/-- Concrete witness for C10: max_iterations = 1 with a residual that
never meets the threshold produces a non-converged record, and the stage
is solved. -/
theorem nonconverged_stage_solved_witness :
    (convergedOf (solveProblem
        ⟨[0], [1], none, some ⟨[0], [0], fun _ _ => 1⟩,
          some ⟨[1], [1], fun _ _ => 2⟩, none, none, .prepared⟩
        ⟨1, -1, 1, 1, 1⟩ ⟨0, 1, 1, 0⟩ (fun _ _ _ => fun _ _ => 0)
        (fun _ pl => pl) (fun _ => 1) (fun _ _ => 0)) = some false) ∧
    (stageOf (solveProblem
        ⟨[0], [1], none, some ⟨[0], [0], fun _ _ => 1⟩,
          some ⟨[1], [1], fun _ _ => 2⟩, none, none, .prepared⟩
        ⟨1, -1, 1, 1, 1⟩ ⟨0, 1, 1, 0⟩ (fun _ _ _ => fun _ _ => 0)
        (fun _ pl => pl) (fun _ => 1) (fun _ _ => 0)) = some Stage.solved ∧
      stageOf (solveProblem
        ⟨[0], [1], none, some ⟨[0], [0], fun _ _ => 1⟩,
          some ⟨[1], [1], fun _ _ => 2⟩, none, none, .prepared⟩
        ⟨1, -1, 1, 1, 1⟩ ⟨0, 1, 1, 0⟩ (fun _ _ _ => fun _ _ => 0)
        (fun _ pl => pl) (fun _ => 1) (fun _ _ => 0)) ≠ some Stage.failed) :=
  ⟨rfl,
    nonconverged_stage_solved
      ⟨[0], [1], none, some ⟨[0], [0], fun _ _ => 1⟩,
        some ⟨[1], [1], fun _ _ => 2⟩, none, none, .prepared⟩
      ⟨1, -1, 1, 1, 1⟩ ⟨0, 1, 1, 0⟩ (fun _ _ _ => fun _ _ => 0)
      (fun _ pl => pl) (fun _ => 1) (fun _ _ => 0) rfl⟩

end Moscot
